import Mathlib

/-!
Shallow embedding of the wolfrisk game core (src/src/main.rs and
src/src/board.rs) together with theorems checking the natural-language
specification against it.

Conventions of the embedding:
* Rust `u8`/`u16`/`usize` values are embedded as `Nat`; none of the claims
  under scrutiny involves wrap-around behaviour, and arithmetic that the
  source performs only after guarding against underflow is mirrored with
  the same guards.
* A Rust `panic!` (including `unwrap`/`expect` on `None` and indexing an
  empty vector) is embedded as `Option.none`: a panicking execution
  produces no resulting state.
* Calls to the random number generator are embedded by passing the drawn
  value in as an explicit argument (a rational in `[0,1)` for
  `gen_range(0., 1.)`, an arbitrary natural reduced modulo the pool size
  for `gen_range(0, n)` / shuffle-then-take-first).
* `f64` probability constants are embedded as the exact decimal rationals
  written in the source.
-/

namespace Wolfrisk

abbrev TerritoryId := Nat
abbrev PlayerId := Nat
abbrev NumArmies := Nat
abbrev CardId := Nat

/-- Embeds `NUM_TERRITORIES` (main.rs line 11). -/
abbrev NUM_TERRITORIES : Nat := 42

/-- Embeds `max_allowed` (main.rs lines 27-33): returns `min max pool`. -/
def max_allowed (max pool : Nat) : Nat :=
  if pool > max then max else pool

/-- Embeds `attacking_allowed` (main.rs lines 18-20). -/
def attacking_allowed (pool : Nat) : Nat :=
  max_allowed 3 pool

/-- Embeds `defending_allowed` (main.rs lines 22-24). -/
def defending_allowed (pool : Nat) : Nat :=
  max_allowed 2 pool

/-- Embeds `CardSymbol` (main.rs lines 144-149). -/
inductive CardSymbol
  | Infantry
  | Cavalry
  | Artillery
deriving DecidableEq, Repr

/-- Embeds `Card` (main.rs lines 162-166). -/
inductive Card
  | Territory (tid : Nat) (sym : CardSymbol)
  | Wild
deriving DecidableEq, Repr

/-- Embeds `Card::is_wild` (main.rs lines 169-175). -/
def Card.is_wild : Card → Bool
  | .Wild => true
  | .Territory _ _ => false

/-- Embeds `Card::get_symbol` (main.rs lines 177-182). -/
def Card.get_symbol : Card → Option CardSymbol
  | .Territory _ sym => some sym
  | .Wild => none

/-- Embeds `Card::get_territory` (main.rs lines 184-189). -/
def Card.get_territory : Card → Option Nat
  | .Territory terr _ => some terr
  | .Wild => none

/-- Embeds `CardAndId` (main.rs line 193). -/
abbrev CardAndId := Card × CardId

/-- Embeds `Trade` (main.rs lines 37-39): an array of exactly 3 cards. -/
structure Trade where
  cards : Fin 3 → CardAndId

/-- Embeds `Trade::cards_as_tuple` (main.rs lines 46-48). -/
def Trade.cards_as_tuple (t : Trade) : Card × Card × Card :=
  ((t.cards 0).1, (t.cards 1).1, (t.cards 2).1)

/-- Embeds `Trade::num_wild` (main.rs lines 58-66). -/
def Trade.num_wild (t : Trade) : Nat :=
  (List.finRange 3).countP (fun i => (t.cards i).1.is_wild)

/-- Embeds `Trade::contains_wild` (main.rs lines 54-56). -/
def Trade.contains_wild (t : Trade) : Bool :=
  t.num_wild > 0

/-- Embeds `Trade::is_non_wild_set` (main.rs lines 70-85). -/
def Trade.is_non_wild_set (t : Trade) : Bool :=
  match t.cards_as_tuple with
  | (Card.Territory _ symbol0, Card.Territory _ symbol1, Card.Territory _ symbol2) =>
    if symbol0 = symbol1 ∧ symbol1 = symbol2 then true
    else if symbol0 ≠ symbol1 ∧ symbol1 ≠ symbol2 ∧ symbol0 ≠ symbol2 then true
    else false
  | _ => false

/-- Embeds `Trade::is_set` (main.rs lines 50-52). -/
def Trade.is_set (t : Trade) : Bool :=
  t.contains_wild || t.is_non_wild_set

/-- Embeds `Trade::value_for_uniform_set` (main.rs lines 135-141). -/
def Trade.value_for_uniform_set : CardSymbol → Nat
  | CardSymbol.Infantry => 4
  | CardSymbol.Cavalry => 6
  | CardSymbol.Artillery => 8

/-- Embeds `Trade::value` (main.rs lines 89-131).  The source `expect`s
that the card matched in the one-wild branch has a symbol; the panic when
it does not is embedded as `none`.  In the one-wild branch the source
compares the two remaining entries of the `Card` vector with full `Card`
equality (`cards[(i + 1) % 3] == cards[(i + 2) % 3]`), territory id
included. -/
def Trade.value (t : Trade) : Option Nat :=
  if ¬ t.is_set then some 0
  else
    match t.cards_as_tuple with
    | (Card.Territory _ sym0, Card.Territory _ sym1, Card.Territory _ sym2) =>
      if sym0 = sym1 ∧ sym1 = sym2 then some (Trade.value_for_uniform_set sym0)
      else if sym0 ≠ sym1 ∧ sym1 ≠ sym2 ∧ sym0 ≠ sym2 then some 10
      else some 0
    | cards =>
      if t.num_wild = 2 then some 10
      else
        let cardsL : List Card := [cards.1, cards.2.1, cards.2.2]
        let i : Nat :=
          if (cardsL.getD 0 Card.Wild).is_wild then 0
          else if (cardsL.getD 1 Card.Wild).is_wild then 1
          else 2
        if cardsL.getD ((i + 1) % 3) Card.Wild = cardsL.getD ((i + 2) % 3) Card.Wild then
          ((cardsL.getD ((i + 1) % 3) Card.Wild).get_symbol).map Trade.value_for_uniform_set
        else some 10

/-- Embeds `CardManager` (main.rs lines 372-377).  The
`HashMap<Nat, HashSet<Nat>>` built by `CardManager::new` holds
exactly the keys `0 .. num_players - 1`, so it is embedded as the bound
`num_players` plus a total function meaningful below that bound; a lookup
of a key `≥ num_players` corresponds to the source's `None` arm.  The
hash sets are embedded as duplicate-free lists in an arbitrary iteration
order, with set-semantics operations (`List.insert` adds only when
absent, as `HashSet::insert` does). -/
structure CardManager where
  num_players : Nat
  cards : List Card
  available : List Nat
  discarded : List Nat
  player_cards : Nat → List Nat

/-- Embeds `CardManager::new` (main.rs lines 380-392). -/
def CardManager.new (num_players : Nat) (cards : List Card) : CardManager :=
  { num_players := num_players
    cards := cards
    available := List.range cards.length
    discarded := []
    player_cards := fun _ => [] }

/-- Embeds `CardManager::player_discard_card` (main.rs lines 407-416):
panics (`none`) on an invalid player; otherwise moves the id from the
hand to the discard pile only when the hand actually contained it. -/
def CardManager.player_discard_card (m : CardManager) (player : Nat)
    (cid : Nat) : Option CardManager :=
  if player < m.num_players then
    if cid ∈ m.player_cards player then
      some { m with
              player_cards :=
                Function.update m.player_cards player ((m.player_cards player).erase cid)
              discarded := m.discarded.insert cid }
    else some m
  else none

/-- Embeds `CardManager::recycle_discard_pile` (main.rs lines 440-442):
drain every discarded id into the available pool. -/
def CardManager.recycle_discard_pile (m : CardManager) : CardManager :=
  { m with available := m.discarded.foldl (fun acc c => acc.insert c) m.available
           discarded := [] }

/-- Embeds `CardManager::draw_random_for_player` (main.rs lines 444-458).
The shuffle of the available ids followed by taking index 0 is embedded by
selecting the pool element at an externally supplied index `pick` reduced
modulo the pool size; indexing an empty pool (`cids[0]`) panics (`none`).
The source inserts the chosen id into the player's hand and never removes
it from `available`. -/
def CardManager.draw_random_for_player (m : CardManager) (player : Nat)
    (pick : Nat) : Option CardManager :=
  let m := if m.available.length = 0 then m.recycle_discard_pile else m
  if player < m.num_players then
    match m.available with
    | [] => none
    | _ :: _ =>
      let chosen := m.available.getD (pick % m.available.length) 0
      some { m with
              player_cards :=
                Function.update m.player_cards player
                  ((m.player_cards player).insert chosen) }
  else none

/-- Embeds `Continent` (board.rs lines 104-112). -/
inductive Continent
  | Australia
  | SouthAmerica
  | Africa
  | Europe
  | NorthAmerica
  | Asia
deriving DecidableEq, Repr

/-- Embeds `Continent::get_range` (board.rs lines 115-124) as the pair of
range endpoints of the half-open id range. -/
def Continent.get_range : Continent → Nat × Nat
  | .Africa => (0, 6)
  | .Asia => (6, 18)
  | .Australia => (18, 22)
  | .Europe => (22, 29)
  | .NorthAmerica => (29, 38)
  | .SouthAmerica => (38, 42)

/-- Embeds `Continent::get_bonus` (board.rs lines 126-135). -/
def Continent.get_bonus : Continent → Nat
  | .Australia => 2
  | .SouthAmerica => 2
  | .Africa => 3
  | .Europe => 5
  | .NorthAmerica => 5
  | .Asia => 7

/-- The territory ids a continent's range iterates over, in order
(board.rs line 397, `for i in continent.get_range()`). -/
def Continent.ids (c : Continent) : List (Fin NUM_TERRITORIES) :=
  (List.finRange NUM_TERRITORIES).filter
    (fun t => c.get_range.1 ≤ t.val ∧ t.val < c.get_range.2)

/-- Embeds `StandardGameBoard` (board.rs lines 302-307).  The fixed-size
array `[(Nat, Nat); 42]` is embedded as a total function out of
`Fin 42`.  The underlying `map` field is the immutable standard map and is
embedded by the global adjacency function `are_adjacent` below. -/
structure StandardGameBoard where
  num_players : Nat
  territories : Fin NUM_TERRITORIES → Nat × Nat
  num_cards : List Nat

/-- Embeds `StandardGameBoard::get_owner` (board.rs lines 345-347). -/
def get_owner (b : StandardGameBoard) (terr : Fin NUM_TERRITORIES) : Nat :=
  (b.territories terr).1

/-- Embeds `StandardGameBoard::get_num_armies` (board.rs lines 349-351). -/
def get_num_armies (b : StandardGameBoard) (terr : Fin NUM_TERRITORIES) : Nat :=
  (b.territories terr).2

/-- Embeds `StandardGameBoard::set_territory` (board.rs lines 413-419):
panics (`none`) when `owner > num_players`, otherwise overwrites the
territory's owner/army pair unconditionally. -/
def set_territory (b : StandardGameBoard) (terr : Fin NUM_TERRITORIES)
    (owner : Nat) (num_armies : Nat) : Option StandardGameBoard :=
  if owner > b.num_players then none
  else some { b with territories := Function.update b.territories terr (owner, num_armies) }

/-- Embeds the provided trait method `GameBoard::add_armies`
(board.rs lines 42-46). -/
def add_armies (b : StandardGameBoard) (tid : Fin NUM_TERRITORIES)
    (add : Nat) : Option StandardGameBoard :=
  set_territory b tid (get_owner b tid) (get_num_armies b tid + add)

/-- Embeds the provided trait method `GameBoard::remove_armies`
(board.rs lines 48-57): panics (`none`) when removing more armies than
exist on the territory. -/
def remove_armies (b : StandardGameBoard) (tid : Fin NUM_TERRITORIES)
    (remove : Nat) : Option StandardGameBoard :=
  if remove > get_num_armies b tid then none
  else set_territory b tid (get_owner b tid) (get_num_armies b tid - remove)

/-- Embeds `GameBoard::is_enemy_territory` (board.rs lines 38-40). -/
def is_enemy_territory (b : StandardGameBoard) (player : Nat)
    (tid : Fin NUM_TERRITORIES) : Bool :=
  get_owner b tid ≠ player

/-- Embeds `StandardGameBoard::get_num_owned_territories`
(board.rs lines 357-365). -/
def get_num_owned_territories (b : StandardGameBoard) (player : Nat) : Nat :=
  (List.finRange NUM_TERRITORIES).countP (fun t => player = get_owner b t)

/-- Embeds `StandardGameBoard::player_owns_continent` (board.rs lines
396-404). -/
def player_owns_continent (b : StandardGameBoard) (player : Nat)
    (continent : Continent) : Bool :=
  continent.ids.all (fun t => get_owner b t = player)

/-- Embeds `StandardGameBoard::get_continent_bonuses` (board.rs lines
377-394). -/
def get_continent_bonuses (b : StandardGameBoard) (player : Nat) : Nat :=
  ([Continent.Australia, Continent.SouthAmerica, Continent.Africa,
    Continent.Europe, Continent.NorthAmerica, Continent.Asia].filter
      (fun c => player_owns_continent b player c)).foldl
    (fun bonus c => bonus + c.get_bonus) 0

/-- Embeds `StandardGameBoard::get_territory_reinforcements` (board.rs
lines 406-411).  Note the source computes `max((num_terr % 3), 3)` — a
remainder, not a division. -/
def get_territory_reinforcements (b : StandardGameBoard) (player : Nat) : Nat :=
  max (get_num_owned_territories b player % 3) 3 + get_continent_bonuses b player

/-- Embeds `StandardTerritory::neighbors` (board.rs lines 244-295) with
the numeric territory ids of the `StandardTerritory` enum (board.rs lines
139-187); each case is annotated with the enum name it translates. -/
def standard_neighbors : Nat → List Nat
  | 0 => [1, 4, 5]                     -- Congo
  | 1 => [0, 2, 3, 4, 12]              -- EastAfrica
  | 2 => [1, 4, 26]                    -- Egypt
  | 3 => [1, 5]                        -- Madagascar
  | 4 => [0, 1, 2, 26, 28, 39]         -- NorthAfrica
  | 5 => [0, 1, 3]                     -- SouthAfrica
  | 6 => [7, 8, 12, 16, 27]            -- Afghanistan
  | 7 => [6, 8, 13, 14, 15, 16]        -- China
  | 8 => [6, 7, 12, 14]                -- India
  | 9 => [11, 13, 15, 17]              -- Irkutsk
  | 10 => [11, 13]                     -- Japan
  | 11 => [9, 10, 17, 29]              -- Kamchatka
  | 12 => [1, 2, 6, 8, 26, 27]         -- MiddleEast
  | 13 => [7, 9, 10, 11, 15]           -- Mongolia
  | 14 => [7, 8, 19]                   -- Siam
  | 15 => [7, 9, 13, 16, 17]           -- Siberia
  | 16 => [6, 7, 15, 27]               -- Ural
  | 17 => [9, 11, 15]                  -- Yakutsk
  | 18 => [20, 21]                     -- EasternAustralia
  | 19 => [14, 20, 21]                 -- Indonesia
  | 20 => [18, 19, 21]                 -- NewGuinea
  | 21 => [18, 19, 20]                 -- WesternAustralia
  | 22 => [23, 24, 25, 28]             -- GreatBritain
  | 23 => [22, 25, 33]                 -- Iceland
  | 24 => [22, 25, 26, 27, 28]         -- NorthernEurope
  | 25 => [22, 23, 24, 27]             -- Scandinavia
  | 26 => [2, 4, 12, 24, 27, 28]       -- SouthernEurope
  | 27 => [6, 12, 16, 24, 25, 26]      -- Ukraine
  | 28 => [4, 22, 24, 26]              -- WesternEurope
  | 29 => [11, 30, 34]                 -- Alaska
  | 30 => [29, 34, 35, 37]             -- Alberta
  | 31 => [32, 37, 41]                 -- CentralAmerica
  | 32 => [31, 35, 36, 37]             -- EasternUS
  | 33 => [23, 34, 35, 36]             -- Greenland
  | 34 => [29, 30, 33, 35]             -- NorthwestTerritory
  | 35 => [30, 32, 33, 34, 36, 37]     -- Ontario
  | 36 => [32, 33, 35]                 -- Quebec
  | 37 => [30, 31, 32, 35]             -- WesternUS
  | 38 => [39, 40]                     -- Argentina
  | 39 => [4, 38, 40, 41]              -- Brazil
  | 40 => [38, 39, 41]                 -- Peru
  | 41 => [31, 39, 40]                 -- Venezuela
  | _ => []

/-- Embeds `GameMap::are_adjacent` on the graph built by `standard_map`
(board.rs lines 67-76 and 87-101): the undirected graph contains an edge
between `a` and `b` exactly when one of them lists the other among its
neighbors. -/
def are_adjacent (a b : Fin NUM_TERRITORIES) : Bool :=
  (standard_neighbors a.val).contains b.val ||
  (standard_neighbors b.val).contains a.val

/-- Embeds `Attack` (main.rs lines 218-222). -/
structure Attack where
  origin : Fin NUM_TERRITORIES
  target : Fin NUM_TERRITORIES
  amount_attacking : Nat

/-- Embeds `one_rolled_1` (main.rs lines 483-491); the `f64` constants are
the exact decimal rationals of the source. -/
def one_rolled_1 (attacker defender : Nat) : Option (ℚ × ℚ) :=
  match attacker, defender with
  | 1, 1 => some (5833/10000, 4167/10000)
  | 2, 1 => some (4213/10000, 5787/10000)
  | 3, 1 => some (3403/10000, 6597/10000)
  | 1, 2 => some (7454/10000, 2546/10000)
  | _, _ => none

/-- Embeds `both_rolled_at_least_2` (main.rs lines 494-500). -/
def both_rolled_at_least_2 (attacker defender : Nat) : Option (ℚ × ℚ × ℚ) :=
  match attacker, defender with
  | 2, 2 => some (4483/10000, 2276/10000, 3241/10000)
  | 3, 2 => some (2926/10000, 3717/10000, 3358/10000)
  | _, _ => none

/-- Embeds the outcome computation of `GameManager::perform_battle`
(main.rs lines 750-772): the branch on the pools, the table lookup (whose
`unwrap` on `None` panics, embedded as `none`) and the comparison of the
uniform draw `roll` against the table entries.  The returned pair is
`(attacker losses, defender losses)`. -/
def battle_outcome (amount_attacking amount_defending : Nat) (roll : ℚ) :
    Option (Nat × Nat) :=
  if amount_defending = 1 ∨ amount_attacking = 1 then
    (one_rolled_1 amount_attacking amount_defending).map
      (fun dist => if roll ≤ dist.1 then (1, 0) else (0, 1))
  else
    (both_rolled_at_least_2 amount_attacking amount_defending).map
      (fun dist =>
        if roll ≤ dist.1 then (2, 0)
        else if dist.1 < roll ∧ roll ≤ dist.1 + dist.2.1 then (0, 2)
        else (1, 1))

/-- Embeds `GameManager::perform_battle` (main.rs lines 741-802): resolve
the outcome, apply attacker and defender losses, and when the target is
reduced to 0 armies move `must_commit = amount_attacking - attacker
losses` armies from the origin into the target; returns the updated board
and whether the target was conquered.  Any internal panic is `none`. -/
def perform_battle (b : StandardGameBoard) (attack : Attack) (roll : ℚ) :
    Option (StandardGameBoard × Bool) :=
  let amount_defending := defending_allowed (get_num_armies b attack.target)
  let amount_attacking := attack.amount_attacking
  match battle_outcome amount_attacking amount_defending roll with
  | none => none
  | some outcome =>
    let must_commit := amount_attacking - outcome.1
    match (if outcome.1 > 0 then remove_armies b attack.origin outcome.1 else some b) with
    | none => none
    | some b1 =>
      match (if outcome.2 > 0 then remove_armies b1 attack.target outcome.2 else some b1) with
      | none => none
      | some b2 =>
        if get_num_armies b2 attack.target = 0 then
          match remove_armies b2 attack.origin must_commit with
          | none => none
          | some b3 =>
            match add_armies b3 attack.target must_commit with
            | none => none
            | some b4 => some (b4, true)
        else some (b2, false)

/-- Embeds `GameManager::verify_battle` (main.rs lines 823-832). -/
def verify_battle (b : StandardGameBoard) (player : Nat) (attack : Attack) : Bool :=
  let can_attack_with := get_num_armies b attack.origin - 1
  get_owner b attack.origin = player &&
  can_attack_with ≥ attack.amount_attacking &&
  are_adjacent attack.origin attack.target &&
  is_enemy_territory b player attack.target

/-- Embeds `GameManager::verify_reinf` (main.rs lines 812-821); the
`HashMap` iteration of a `Reinforcement` is embedded as a list of
(territory, amount) pairs. -/
def verify_reinf (b : StandardGameBoard) (player : Nat) (reinf_amt : Nat)
    (reinf : List (Fin NUM_TERRITORIES × Nat)) : Bool :=
  (reinf.all (fun tr => ¬ is_enemy_territory b player tr.1)) &&
  (reinf.map Prod.snd).sum = reinf_amt

/-- Embeds the application loop of `GameManager::process_reinforcement`
(main.rs lines 639-649): for each entry with a positive amount, write the
territory back with its owner and the increased army count. -/
def apply_reinforcement : StandardGameBoard → List (Fin NUM_TERRITORIES × Nat) →
    Option StandardGameBoard
  | b, [] => some b
  | b, (terr, reinf) :: rest =>
    if reinf > 0 then
      match set_territory b terr (get_owner b terr) (get_num_armies b terr + reinf) with
      | none => none
      | some b' => apply_reinforcement b' rest
    else apply_reinforcement b rest

/-- Embeds the owner-assignment loop of
`StandardGameBoard::distrib_terr_randomly` (board.rs lines 325-339): one
recursion step per territory, refilling the player pool whenever it is
empty and picking the pool entry at the externally supplied random index
(reduced modulo the pool size).  `gen_range(0, 0)` on a permanently empty
pool (zero players) panics, embedded as `none`. -/
def distribOwners (num_players : Nat) : List Nat → List Nat → Option (List Nat)
  | [], _ => some []
  | choice :: rest, pool =>
    let pool' := if pool.length = 0 then List.range num_players else pool
    if pool'.length = 0 then none
    else
      let idx := choice % pool'.length
      (distribOwners num_players rest (pool'.eraseIdx idx)).map
        (fun tl => pool'.getD idx 0 :: tl)

/-- Embeds `StandardGameBoard::distrib_terr_randomly` (board.rs lines
325-339): the produced array pairs each assigned owner with an army count
of 1 (the array is initialised to `[(0, 1); NUM_TERRITORIES]` and only the
owner component is ever written). -/
def distrib_terr_randomly (num_players : Nat) (choices : List Nat) :
    Option (List Nat) :=
  distribOwners num_players choices (List.range num_players)

/-- The board built by `StandardGameBoard::new` from a distributed
territory array (board.rs lines 310-322): every territory carries 1 army
and the owner assigned by the distribution; `num_cards` starts at 0 for
each player. -/
def board_of_owners (num_players : Nat) (owners : List Nat) : StandardGameBoard :=
  { num_players := num_players
    territories := fun t => (owners.getD t.val 0, 1)
    num_cards := List.replicate num_players 0 }

/-- A board as produced by `StandardGameBoard::randomly_distributed`
(board.rs lines 319-322) for some number of players and some sequence of
random draws; the 42 draws of the source loop are the `choices` list. -/
def isInitial (b : StandardGameBoard) : Prop :=
  ∃ num_players choices owners,
    choices.length = NUM_TERRITORIES ∧
    distrib_terr_randomly num_players choices = some owners ∧
    b = board_of_owners num_players owners

/-- One validated, state-mutating operation of the turn engine on the
board, as dispatched by `GameManager::run`:
* `reinforce` — a reinforcement distribution accepted by `verify_reinf`
  and applied by the loop of `process_reinforcement` (main.rs 624-655);
* `battle` — an attack accepted by `verify_battle` and resolved by
  `perform_battle`, conquest included (main.rs 678-802);
* `trade_armies` — the two bonus armies `perform_trade` adds to a traded
  territory card's territory when the trading player owns it
  (main.rs 608-622). -/
inductive Step : StandardGameBoard → StandardGameBoard → Prop
  | reinforce (player : Nat) (amt : Nat)
      (reinf : List (Fin NUM_TERRITORIES × Nat)) (b b' : StandardGameBoard)
      (hv : verify_reinf b player amt reinf = true)
      (ha : apply_reinforcement b reinf = some b') : Step b b'
  | battle (player : Nat) (attack : Attack) (roll : ℚ) (conquered : Bool)
      (b b' : StandardGameBoard)
      (hv : verify_battle b player attack = true)
      (hb : perform_battle b attack roll = some (b', conquered)) : Step b b'
  | trade_armies (player : Nat) (tid : Fin NUM_TERRITORIES) (b b' : StandardGameBoard)
      (hown : get_owner b tid = player)
      (ha : add_armies b tid 2 = some b') : Step b b'

/-- The board states reachable by the turn engine: an initial randomly
distributed board followed by any sequence of validated operations. -/
inductive Reachable : StandardGameBoard → Prop
  | init (b : StandardGameBoard) (h : isInitial b) : Reachable b
  | step (b b' : StandardGameBoard) (h : Reachable b) (hs : Step b b') : Reachable b'

/-- The phases of a player's turn named by the specification. -/
inductive Phase
  | Trade
  | Reinforce
  | Attack
  | Fortify
deriving DecidableEq, Repr

/-- The phase-processing calls `GameManager::run` makes for a
non-defeated player on each turn, in source order (main.rs lines 546-548:
`process_trade`, `process_reinforcement`, `process_attack`). -/
def run_turn_phases : List Phase :=
  [Phase.Trade, Phase.Reinforce, Phase.Attack]

/-- Modelled from the spec, section 4.4: the outcome rows of the
combat-odds table for a pool pair, in table order, each row carrying its
probability mass and its loss outcome.  This is the spec-side definition
`battle_outcome` is compared against. -/
def spec_odds_rows : Nat → Nat → List (ℚ × (Nat × Nat))
  | 1, 1 => [(5833/10000, (1, 0)), (4167/10000, (0, 1))]
  | 2, 1 => [(4213/10000, (1, 0)), (5787/10000, (0, 1))]
  | 3, 1 => [(3403/10000, (1, 0)), (6597/10000, (0, 1))]
  | 1, 2 => [(7454/10000, (1, 0)), (2546/10000, (0, 1))]
  | 2, 2 => [(4483/10000, (2, 0)), (2276/10000, (0, 2)), (3241/10000, (1, 1))]
  | 3, 2 => [(2926/10000, (2, 0)), (3717/10000, (0, 2)), (3358/10000, (1, 1))]
  | _, _ => []

/-- Modelled from the spec, section 4.4: compare the draw against the
cumulative thresholds in table order with a less-than-or-equal tie-break;
the final row is the catch-all `else` outcome. -/
def spec_select_cumulative (roll : ℚ) : List (ℚ × (Nat × Nat)) → ℚ → Nat × Nat
  | [], _ => (0, 0)
  | [(_, outcome)], _ => outcome
  | (p, outcome) :: rest, acc =>
    if roll ≤ acc + p then outcome else spec_select_cumulative roll rest (acc + p)
/-! Concrete boards and inputs used to evaluate the embedded code at the
specific game situations the theorems below are about. -/

/-- A 2-player board on which player 0 holds territory 0 (Congo) with 4
armies and player 1 holds every other territory with 1 army. -/
def c1_board : StandardGameBoard :=
  { num_players := 2
    territories := fun t => if t.val = 0 then (0, 4) else (1, 1)
    num_cards := [0, 0] }

/-- An attack with 3 armies from territory 0 (Congo) into the adjacent
enemy territory 1 (EastAfrica). -/
def c1_attack : Attack :=
  { origin := 0, target := 1, amount_attacking := 3 }

/-- A 2-player board on which player 0 owns exactly 12 territories (five
of Africa, six of Asia, one of Australia — no continent is complete) and
player 1 owns the remaining 30. -/
def c2_board : StandardGameBoard :=
  { num_players := 2
    territories := fun t =>
      if t.val ≤ 4 ∨ (6 ≤ t.val ∧ t.val ≤ 11) ∨ t.val = 18 then (0, 1) else (1, 1)
    num_cards := [0, 0] }

/-- A card manager for one player over a one-card catalog. -/
def c3_card_manager : CardManager :=
  CardManager.new 1 [Card.Wild]

/-- A trade of one wild card plus two Cavalry cards naming different
territories (ids as in a standard deck with symbol offset 1). -/
def c4_trade : Trade :=
  { cards := ![(Card.Wild, 42),
               (Card.Territory 0 CardSymbol.Cavalry, 0),
               (Card.Territory 3 CardSymbol.Cavalry, 3)] }

/-- A 2-player board on which player 0 holds territory 0 (Congo) with 6
armies and player 1 holds every other territory with 1 army. -/
def c5_board : StandardGameBoard :=
  { num_players := 2
    territories := fun t => if t.val = 0 then (0, 6) else (1, 1)
    num_cards := [0, 0] }

/-- An attack with 5 armies from territory 0 (Congo) into the adjacent
enemy territory 1 (EastAfrica). -/
def c5_attack : Attack :=
  { origin := 0, target := 1, amount_attacking := 5 }

/-- The owner list `distrib_terr_randomly` produces for 2 players when
every random draw is 0: the players alternate. -/
def c6_owners : List Nat :=
  (List.replicate 21 [0, 1]).flatten

/-- A 2-player board with every territory owned by player 0 with 1 army. -/
def c9_board : StandardGameBoard :=
  { num_players := 2
    territories := fun _ => (0, 1)
    num_cards := [0, 0] }

/-- A 2-player board with every territory owned by player 0 with 3
armies. -/
def c10_board : StandardGameBoard :=
  { num_players := 2
    territories := fun _ => (0, 3)
    num_cards := [0, 0] }

/-! Helper lemmas about the board mutators, shared by the theorems
below. -/

/-- A successful `set_territory` writes exactly the requested pair. -/
theorem set_territory_some {b b' : StandardGameBoard} {t : Fin NUM_TERRITORIES}
    {owner : Nat} {n : Nat}
    (h : set_territory b t owner n = some b') :
    b' = { b with territories := Function.update b.territories t (owner, n) } := by
  unfold set_territory at h
  by_cases hc : owner > b.num_players
  · rw [if_pos hc] at h
    exact absurd h (by simp)
  · rw [if_neg hc] at h
    exact (Option.some.inj h).symm

/-- Pointwise army counts, owners and the player bound after a successful
`add_armies`. -/
theorem add_armies_fields {b b' : StandardGameBoard} {t : Fin NUM_TERRITORIES}
    {k : Nat} (h : add_armies b t k = some b') :
    (∀ u, get_num_armies b' u =
      if u = t then get_num_armies b t + k else get_num_armies b u) ∧
    (∀ u, get_owner b' u = get_owner b u) ∧
    b'.num_players = b.num_players := by
  have h' : set_territory b t (get_owner b t) (get_num_armies b t + k) = some b' := h
  have hb := set_territory_some h'
  subst hb
  refine ⟨?_, ?_, rfl⟩ <;> intro u <;> by_cases hu : u = t <;>
    simp [get_num_armies, get_owner, Function.update_apply, hu]

/-- A successful `remove_armies` implies the no-underflow guard held and
gives the pointwise army counts, owners and the player bound. -/
theorem remove_armies_fields {b b' : StandardGameBoard} {t : Fin NUM_TERRITORIES}
    {k : Nat} (h : remove_armies b t k = some b') :
    k ≤ get_num_armies b t ∧
    (∀ u, get_num_armies b' u =
      if u = t then get_num_armies b t - k else get_num_armies b u) ∧
    (∀ u, get_owner b' u = get_owner b u) ∧
    b'.num_players = b.num_players := by
  unfold remove_armies at h
  by_cases hk : k > get_num_armies b t
  · rw [if_pos hk] at h
    exact absurd h (by simp)
  · rw [if_neg hk] at h
    have hb := set_territory_some h
    subst hb
    refine ⟨by omega, ?_, ?_, rfl⟩ <;> intro u <;> by_cases hu : u = t <;>
      simp [get_num_armies, get_owner, Function.update_apply, hu]

/-- The conditional removal steps of `perform_battle` (`if losses > 0
then remove else keep`): no-underflow bound plus pointwise army counts
and owners. -/
theorem cond_remove_fields {b b1 : StandardGameBoard} {t : Fin NUM_TERRITORIES}
    {k : Nat}
    (h : (if k > 0 then remove_armies b t k else some b) = some b1) :
    k ≤ get_num_armies b t ∧
    (∀ u, get_num_armies b1 u =
      if u = t then get_num_armies b t - k else get_num_armies b u) ∧
    (∀ u, get_owner b1 u = get_owner b u) := by
  by_cases hk : k > 0
  · rw [if_pos hk] at h
    obtain ⟨hk', ha, ho, _⟩ := remove_armies_fields h
    exact ⟨hk', ha, ho⟩
  · rw [if_neg hk] at h
    simp only [Option.some.injEq] at h
    subst h
    have hk0 : k = 0 := by omega
    subst hk0
    refine ⟨Nat.zero_le _, ?_, fun _ => rfl⟩
    intro u
    by_cases hu : u = t <;> simp [hu]

/-- The pool pairs for which `one_rolled_1` returns a distribution. -/
theorem one_rolled_1_some {A d : Nat} {dist : ℚ × ℚ}
    (h : one_rolled_1 A d = some dist) :
    (A = 1 ∧ d = 1) ∨ (A = 2 ∧ d = 1) ∨ (A = 3 ∧ d = 1) ∨ (A = 1 ∧ d = 2) := by
  unfold one_rolled_1 at h
  split at h <;> simp_all

/-- The pool pairs for which `both_rolled_at_least_2` returns a
distribution. -/
theorem both_rolled_at_least_2_some {A d : Nat} {dist : ℚ × ℚ × ℚ}
    (h : both_rolled_at_least_2 A d = some dist) :
    (A = 2 ∧ d = 2) ∨ (A = 3 ∧ d = 2) := by
  unfold both_rolled_at_least_2 at h
  split at h <;> simp_all

/-- Facts about any outcome the combat resolver can return: the
attacking pool is positive, attacker losses never exceed it, the pool
strictly exceeds the attacker losses whenever the defender loses
anything, and defender losses never exceed the defending pool. -/
theorem battle_outcome_facts {A d : Nat} {r : ℚ} {o : Nat × Nat}
    (h : battle_outcome A d r = some o) :
    1 ≤ A ∧ o.1 ≤ A ∧ (1 ≤ o.2 → o.1 + 1 ≤ A) ∧ o.2 ≤ d := by
  unfold battle_outcome at h
  split at h
  · cases hd : one_rolled_1 A d with
    | none => rw [hd] at h; simp at h
    | some dist =>
      rw [hd] at h
      simp only [Option.map_some'] at h
      rcases one_rolled_1_some hd with ⟨rfl, rfl⟩ | ⟨rfl, rfl⟩ | ⟨rfl, rfl⟩ | ⟨rfl, rfl⟩ <;>
        split at h <;> cases h <;> simp
  · cases hd : both_rolled_at_least_2 A d with
    | none => rw [hd] at h; simp at h
    | some dist =>
      rw [hd] at h
      simp only [Option.map_some'] at h
      rcases both_rolled_at_least_2_some hd with ⟨rfl, rfl⟩ | ⟨rfl, rfl⟩ <;>
        split at h <;> (try split at h) <;> cases h <;> simp

/-- Projections of a passing `verify_battle`: the attacker owns the
origin, the origin's spare armies cover the attack amount, and origin
and target differ. -/
theorem verify_battle_facts {b : StandardGameBoard} {player : Nat}
    {attack : Attack} (h : verify_battle b player attack = true) :
    get_owner b attack.origin = player ∧
    attack.amount_attacking ≤ get_num_armies b attack.origin - 1 ∧
    attack.origin ≠ attack.target := by
  unfold verify_battle is_enemy_territory at h
  simp only [Bool.and_eq_true, decide_eq_true_eq, ge_iff_le] at h
  obtain ⟨⟨⟨h1, h2⟩, _⟩, h4⟩ := h
  refine ⟨h1, h2, fun he => ?_⟩
  rw [he] at h1
  exact h4 h1

/-- A battle accepted by `verify_battle` leaves every territory with at
least one army, the conquered target included. -/
theorem perform_battle_armies_pos {b b' : StandardGameBoard} {attack : Attack}
    {roll : ℚ} {conq : Bool} {player : Nat}
    (hv : verify_battle b player attack = true)
    (hb : perform_battle b attack roll = some (b', conq))
    (hinv : ∀ t, 1 ≤ get_num_armies b t) :
    ∀ t, 1 ≤ get_num_armies b' t := by
  obtain ⟨hown, hcan, hne⟩ := verify_battle_facts hv
  have horig : attack.amount_attacking + 1 ≤ get_num_armies b attack.origin := by
    have := hinv attack.origin
    omega
  have hdle : defending_allowed (get_num_armies b attack.target) ≤
      get_num_armies b attack.target := by
    unfold defending_allowed max_allowed
    split <;> omega
  simp only [perform_battle] at hb
  split at hb
  · exact absurd hb (by simp)
  next outcome ho =>
    obtain ⟨hA1, hoA, hcommit, hod⟩ := battle_outcome_facts ho
    have hod' : outcome.2 ≤ get_num_armies b attack.target := le_trans hod hdle
    split at hb
    · exact absurd hb (by simp)
    next b1 hb1 =>
      obtain ⟨_, ha1, _⟩ := cond_remove_fields hb1
      split at hb
      · exact absurd hb (by simp)
      next b2 hb2 =>
        obtain ⟨_, ha2, _⟩ := cond_remove_fields hb2
        have hb1t : get_num_armies b1 attack.target = get_num_armies b attack.target := by
          simp only [ha1]
          simp [(Ne.symm hne)]
        have hb2t : get_num_armies b2 attack.target =
            get_num_armies b attack.target - outcome.2 := by
          simp [ha2, hb1t]
        have hb2o : get_num_armies b2 attack.origin =
            get_num_armies b attack.origin - outcome.1 := by
          simp only [ha2, ha1]
          simp [hne]
        have hb2other : ∀ u, u ≠ attack.origin → u ≠ attack.target →
            get_num_armies b2 u = get_num_armies b u := by
          intro u hu1 hu2
          simp only [ha2, ha1]
          simp [hu1, hu2]
        split at hb
        next hzero =>
          -- conquest: the target was emptied and must_commit armies move in
          have htar : outcome.2 = get_num_armies b attack.target := by
            rw [hb2t] at hzero
            omega
          have hcpos : 1 ≤ outcome.2 := by
            have := hinv attack.target
            omega
          have hmc : outcome.1 + 1 ≤ attack.amount_attacking := hcommit hcpos
          split at hb
          · exact absurd hb (by simp)
          next b3 hb3 =>
            obtain ⟨hk3, ha3, _, _⟩ := remove_armies_fields hb3
            split at hb
            · exact absurd hb (by simp)
            next b4 hb4 =>
              obtain ⟨ha4, _, _⟩ := add_armies_fields hb4
              simp only [Option.some.injEq, Prod.mk.injEq] at hb
              obtain ⟨rfl, rfl⟩ := hb
              intro u
              simp only [ha4, ha3]
              by_cases hu2 : u = attack.target
              · subst hu2
                simp [(Ne.symm hne), hb2t]
                omega
              · by_cases hu1 : u = attack.origin
                · subst hu1
                  simp [hu2, hb2o]
                  omega
                · rw [if_neg hu2, if_neg hu1, hb2other u hu1 hu2]
                  exact hinv u
        next hzero =>
          -- no conquest: the target kept a positive army count
          simp only [Option.some.injEq, Prod.mk.injEq] at hb
          obtain ⟨rfl, rfl⟩ := hb
          intro u
          by_cases hu2 : u = attack.target
          · subst hu2
            omega
          · by_cases hu1 : u = attack.origin
            · subst hu1
              rw [hb2o]
              omega
            · rw [hb2other u hu1 hu2]
              exact hinv u

/-- The reinforcement application loop only ever adds armies, so it keeps
every territory's army count positive. -/
theorem apply_reinforcement_armies_pos :
    ∀ (l : List (Fin NUM_TERRITORIES × Nat)) (b b' : StandardGameBoard),
      apply_reinforcement b l = some b' → (∀ t, 1 ≤ get_num_armies b t) →
      ∀ t, 1 ≤ get_num_armies b' t := by
  intro l
  induction l with
  | nil =>
    intro b b' h hinv
    simp only [apply_reinforcement, Option.some.injEq] at h
    subst h
    exact hinv
  | cons p rest ih =>
    obtain ⟨terr, n⟩ := p
    intro b b' h hinv
    simp only [apply_reinforcement] at h
    split at h
    · split at h
      · exact absurd h (by simp)
      next bmid heq =>
        refine ih bmid b' h ?_
        have hbm := set_territory_some heq
        subst hbm
        intro t
        have h1 := hinv t
        by_cases ht : t = terr
        · subst ht
          simp [get_num_armies] at h1 ⊢
          omega
        · simpa [get_num_armies, Function.update_noteq ht] using h1
    · exact ih b b' h hinv
/-! Theorems settling the claims. -/

/-- C1: evaluating `perform_battle` on a conquering battle (draw 0.9, so
the defender loses its only army) shows the battle reports a conquest and
moves `amount_attacking - attacker_losses = 3` armies into the target,
leaving the origin with 1 army — but the target's owner afterwards is
still the defending player 1, not the attacking player 0: ownership is
never transferred (main.rs lines 790-797 re-write the target with its
current owner via `add_armies`). -/
theorem conquest_keeps_defender_as_owner :
    (perform_battle c1_board c1_attack (9/10)).map
        (fun r => (r.2, r.1.territories 1, r.1.territories 0)) =
      some (true, (1, 3), (0, 1)) := by
  have hb : battle_outcome c1_attack.amount_attacking
      (defending_allowed (get_num_armies c1_board c1_attack.target)) (9/10) =
        some (0, 1) := by
    show battle_outcome 3 1 (9/10) = some (0, 1)
    unfold battle_outcome
    norm_num [one_rolled_1]
  simp only [perform_battle]
  rw [hb]
  decide

/-- C2: a player owning 12 territories and no complete continent receives
3 reinforcements from the code, not the 4 the claim states: the source
computes `max(num_terr % 3, 3)` (board.rs line 410), a remainder instead
of the claimed floored division `max(num_terr / 3, 3)`. -/
theorem reinforcements_twelve_territories_eq_three :
    get_num_owned_territories c2_board 0 = 12 ∧
    get_continent_bonuses c2_board 0 = 0 ∧
    get_territory_reinforcements c2_board 0 = 3 := by
  decide

/-- C3: after `draw_random_for_player`, the drawn card id 0 is in the
player's hand and still in the available pool (main.rs lines 444-458
insert `cids[0]` into the hand without removing it from `available`), so
the pools and hands sum to 2 ids against a catalog of 1 card. -/
theorem draw_leaves_card_in_available :
    (c3_card_manager.draw_random_for_player 0 0).map
        (fun m => (decide (0 ∈ m.available), decide (0 ∈ m.player_cards 0),
                   m.available.length + m.discarded.length + (m.player_cards 0).length,
                   m.cards.length)) =
      some (true, true, 2, 1) := by
  decide

/-- C4: one wild plus two Cavalry cards naming different territories is
valued 10 by the code, not the 6 the claim states: the one-wild branch
compares the two remaining cards with full `Card` equality, territory id
included (main.rs line 120), so cards sharing only their symbol never
match. -/
theorem one_wild_two_cavalry_value_ten :
    c4_trade.is_set = true ∧ c4_trade.value = some 10 := by
  decide

/-- C5: `verify_battle` accepts an attack with `amount_attacking = 5`
(it checks only `origin armies - 1 ≥ amount_attacking`, never capping the
attacking pool at 3, main.rs lines 823-832), and `perform_battle` then
looks up the pool pair (5, 1), which is outside the odds table: the
lookup returns `None` and the `unwrap` panics (embedded as `none`). -/
theorem uncapped_attack_accepted_and_battle_panics :
    verify_battle c5_board 0 c5_attack = true ∧
    perform_battle c5_board c5_attack (1/2) = none := by
  exact ⟨by decide, rfl⟩

/-- C6: in every board state reachable by the turn engine through an
initial random distribution followed by validated reinforcements,
battles (conquests included) and trade army bonuses, every territory
holds at least one army. -/
theorem reachable_armies_pos (b : StandardGameBoard) (h : Reachable b) :
    ∀ t, 1 ≤ get_num_armies b t := by
  induction h with
  | init b hinit =>
    obtain ⟨n, choices, owners, hlen, hdist, rfl⟩ := hinit
    intro t
    simp [board_of_owners, get_num_armies]
  | step b b' hr hs ih =>
    cases hs with
    | reinforce player amt reinf b b' hv ha =>
      exact apply_reinforcement_armies_pos reinf b b' ha ih
    | battle player attack roll conquered b b' hv hb =>
      exact perform_battle_armies_pos hv hb ih
    | trade_armies player tid b b' hown ha =>
      intro u
      obtain ⟨harm, _, _⟩ := add_armies_fields ha
      have hu' := ih u
      rw [harm]
      by_cases hu : u = tid
      · subst hu
        simp
      · rw [if_neg hu]
        exact hu'

/-- C6 witness: a concrete initial board (2 players, all random draws 0)
is reachable and every territory, territory 0 included, holds at least
one army. -/
theorem reachable_armies_pos_witness :
    1 ≤ get_num_armies (board_of_owners 2 c6_owners) 0 :=
  reachable_armies_pos (board_of_owners 2 c6_owners)
    (Reachable.init _ ⟨2, List.replicate NUM_TERRITORIES 0, c6_owners,
      by decide, by decide, rfl⟩) 0

/-- C7: for every pool pair of the odds table and every draw, the combat
resolver is a function of the pair and the draw and returns exactly the
outcome selected by comparing the draw against the cumulative thresholds
in table order with a less-than-or-equal tie-break. -/
theorem battle_outcome_matches_cumulative_table (a d : Nat) (r : ℚ)
    (h : (a, d) ∈ [(1, 1), (2, 1), (3, 1), (1, 2), (2, 2), (3, 2)]) :
    battle_outcome a d r = some (spec_select_cumulative r (spec_odds_rows a d) 0) := by
  have two_row : ∀ (t1 t2 : ℚ) (o1 o2 : Nat × Nat),
      (if r ≤ t1 then o1 else o2) = spec_select_cumulative r [(t1, o1), (t2, o2)] 0 := by
    intro t1 t2 o1 o2
    simp only [spec_select_cumulative, zero_add]
  have three_row : ∀ (t1 t2 t3 : ℚ) (o1 o2 o3 : Nat × Nat),
      (if r ≤ t1 then o1
        else if t1 < r ∧ r ≤ t1 + t2 then o2 else o3) =
        spec_select_cumulative r [(t1, o1), (t2, o2), (t3, o3)] 0 := by
    intro t1 t2 t3 o1 o2 o3
    simp only [spec_select_cumulative, zero_add]
    rcases le_or_lt r t1 with h1 | h1
    · rw [if_pos h1, if_pos h1]
    · rw [if_neg (not_le.mpr h1), if_neg (not_le.mpr h1)]
      rcases le_or_lt r (t1 + t2) with h2 | h2
      · rw [if_pos ⟨h1, h2⟩, if_pos h2]
      · rw [if_neg (by rintro ⟨_, hc⟩; exact absurd hc (not_le.mpr h2)),
          if_neg (not_le.mpr h2)]
  simp only [List.mem_cons, List.not_mem_nil, or_false, Prod.mk.injEq] at h
  rcases h with ⟨rfl, rfl⟩ | ⟨rfl, rfl⟩ | ⟨rfl, rfl⟩ | ⟨rfl, rfl⟩ | ⟨rfl, rfl⟩ | ⟨rfl, rfl⟩
  · exact congrArg some (two_row (5833/10000) (4167/10000) (1, 0) (0, 1))
  · exact congrArg some (two_row (4213/10000) (5787/10000) (1, 0) (0, 1))
  · exact congrArg some (two_row (3403/10000) (6597/10000) (1, 0) (0, 1))
  · exact congrArg some (two_row (7454/10000) (2546/10000) (1, 0) (0, 1))
  · exact congrArg some
      (three_row (4483/10000) (2276/10000) (3241/10000) (2, 0) (0, 2) (1, 1))
  · exact congrArg some
      (three_row (2926/10000) (3717/10000) (3358/10000) (2, 0) (0, 2) (1, 1))

/-- C7 witness: for pools (1, 1) a draw exactly equal to the 0.5833
threshold selects attacker-loses-1 under the less-than-or-equal
tie-break. -/
theorem battle_outcome_matches_cumulative_table_witness :
    battle_outcome 1 1 (5833/10000) = some (1, 0) := by
  have h := battle_outcome_matches_cumulative_table 1 1 (5833/10000) (by simp)
  rw [h]
  simp [spec_odds_rows, spec_select_cumulative]

/-- C8: `GameManager::run` never offers a fortify phase: the per-turn
calls are exactly `process_trade`, `process_reinforcement`,
`process_attack` in that order (main.rs lines 546-548); no fortify
processing exists in the engine (`Move` is the unit placeholder, main.rs
line 238, and `Player::fortify` is never called). -/
theorem fortify_not_in_turn_phases :
    Phase.Fortify ∉ run_turn_phases ∧
    run_turn_phases = [Phase.Trade, Phase.Reinforce, Phase.Attack] := by
  decide

/-- C9: on a 2-player board, `set_territory` with owner 2 — an id outside
the valid range {0, 1}, equal to `num_players` — does not panic but
silently writes (2, 5) to the territory: the guard is
`owner > num_players`, not `owner >= num_players` (board.rs line 414). -/
theorem set_territory_accepts_owner_eq_num_players :
    (set_territory c9_board 0 2 5).map (fun b => b.territories 0) = some (2, 5) := by
  decide

/-- C10: for every territory `t` and every amount `n`, `add_armies` —
whenever it produces a board — keeps the owner of `t`, changes only `t`'s
army count, by exactly plus `n`, and leaves every other territory's
owner/army pair and the player bound unchanged; and `remove_armies` —
whose success implies its no-underflow guard `n ≤ current count` held —
likewise keeps the owner and changes only `t`'s count, by exactly minus
`n`. -/
theorem add_remove_armies_frame (b : StandardGameBoard)
    (t : Fin NUM_TERRITORIES) (n : Nat) :
    (∀ b₁, add_armies b t n = some b₁ →
      get_owner b₁ t = get_owner b t ∧
      get_num_armies b₁ t = get_num_armies b t + n ∧
      b₁.num_players = b.num_players ∧
      ∀ u, u ≠ t → b₁.territories u = b.territories u) ∧
    (∀ b₂, remove_armies b t n = some b₂ →
      n ≤ get_num_armies b t ∧
      get_owner b₂ t = get_owner b t ∧
      get_num_armies b₂ t + n = get_num_armies b t ∧
      b₂.num_players = b.num_players ∧
      ∀ u, u ≠ t → b₂.territories u = b.territories u) := by
  constructor
  · intro b₁ h₁
    have e₁ := set_territory_some (h₁ :
      set_territory b t (get_owner b t) (get_num_armies b t + n) = some b₁)
    subst e₁
    refine ⟨?_, ?_, rfl, ?_⟩
    · simp [get_owner]
    · simp [get_num_armies]
    · intro u hu
      simp [Function.update_noteq hu]
  · intro b₂ h₂
    have hk : ¬ n > get_num_armies b t := by
      unfold remove_armies at h₂
      by_cases hk : n > get_num_armies b t
      · rw [if_pos hk] at h₂
        exact absurd h₂ (by simp)
      · exact hk
    have e₂ : set_territory b t (get_owner b t) (get_num_armies b t - n) = some b₂ := by
      unfold remove_armies at h₂
      rw [if_neg hk] at h₂
      exact h₂
    have e₂' := set_territory_some e₂
    subst e₂'
    refine ⟨by omega, ?_, ?_, rfl, ?_⟩
    · simp [get_owner]
    · simp [get_num_armies] at hk ⊢
      omega
    · intro u hu
      simp [Function.update_noteq hu]

/-- C10 witness: on a concrete board, adding then removing 2 armies at
territory 0 changes its count by +2 respectively -2. -/
theorem add_remove_armies_frame_witness :
    get_num_armies ((add_armies c10_board 0 2).getD c10_board) 0 =
        get_num_armies c10_board 0 + 2 ∧
    get_num_armies ((remove_armies c10_board 0 2).getD c10_board) 0 + 2 =
        get_num_armies c10_board 0 := by
  have h := add_remove_armies_frame c10_board 0 2
  exact ⟨(h.1 ((add_armies c10_board 0 2).getD c10_board) rfl).2.1,
         (h.2 ((remove_armies c10_board 0 2).getD c10_board) rfl).2.2.1⟩

end Wolfrisk
